import Mathlib

/-!
Shallow embedding of `emva1288/camera/camera.py` (class `Camera`), the
EMVA1288 sensor simulator.  Real-valued quantities are modelled by `ℝ`.
The external `routines` module (photon conversion, nearest-value snapping,
default quantum efficiency) is an out-of-scope collaborator: the photon
routines are passed in as explicit function parameters, and
`nearest_value` is modelled from the spec where noted.  The random draw in
`grab` is modelled by an explicit standard-normal sample matrix `z`.
-/

noncomputable section

namespace Emva1288

open scoped Classical

/-- A dense 2-d array (numpy `ndarray`), entry type generic. -/
structure Arr (α : Type) where
  rows : ℕ
  cols : ℕ
  data : ℕ → ℕ → α

/-- Python truthiness of a numpy array (`bool(arr)`): a single-element
array yields the truth value of its entry; any other size raises
`ValueError` (ambiguous truth value). -/
def truthValue (a : Arr ℝ) : Except String Bool :=
  if a.rows * a.cols = 1 then
    .ok (if a.data 0 0 = 0 then false else true)
  else
    .error "The truth value of an array with more than one element is ambiguous"

/-- Python `x or default` applied to an optional numpy array, as in the
constructor lines `self._dsnu = dsnu or np.zeros(...)` and
`self._prnu = prnu or np.ones(...)`. -/
def orDefault (x : Option (Arr ℝ)) (d : Arr ℝ) : Except String (Arr ℝ) :=
  match x with
  | none => .ok d
  | some a => do
      let b ← truthValue a
      if b then pure a else pure d

/-- `np.linspace a b num`: `num` evenly spaced points from `a` to `b`
inclusive.  (For `num = 1` numpy returns `[a]`, which the formula also
yields since the `i = 0` term has numerator `0`.) -/
def linspace (a b : ℝ) (num : ℕ) : List ℝ :=
  (List.range num).map (fun i : ℕ => a + (i : ℝ) * (b - a) / ((num : ℝ) - 1))

/-- Modelled from the spec: `routines.nearest_value` — the file
`emva1288/camera/routines.py` is not among the sources.  Spec §6: maps a
value and an ordered candidate sequence to the member of the sequence
closest to the value; §4.4 allows any consistent tie-break (here the
earlier candidate wins, matching `np.argmin` returning the first minimum). -/
def nearest_value (v : ℝ) (l : List ℝ) : ℝ :=
  match l with
  | [] => 0
  | c :: cs => cs.foldl (fun best x => if |v - x| < |v - best| then x else best) c

/-- Signature of the external photon-count / radiance routines:
arguments are (exposure, wavelength, radiance-or-photons, pixel area,
f-number). -/
abbrev PhotonFn := ℝ → ℝ → ℝ → ℝ → ℝ → ℝ

/-- State of a `Camera` instance: every attribute assigned in
`Camera.__init__`. -/
structure Camera where
  f_number : ℝ
  pixel_area : ℝ
  bit_depth : ℕ
  img_max : ℕ
  width : ℕ
  height : ℕ
  temperature : ℝ
  temperature_ref : ℝ
  temperature_doubling : ℝ
  wavelength : ℝ
  qe : ℝ
  dark_current_ref : ℝ
  dark_signal_0 : ℝ
  sigma2_dark_0 : ℝ
  exposure : ℝ
  exposure_min : ℝ
  exposure_max : ℝ
  Ks : List ℝ
  K : ℝ
  blackoffsets : List ℝ
  blackoffset : ℝ
  dsnu : Arr ℝ
  prnu : Arr ℝ

/-- `Camera.__init__`: builds the state from the constructor parameters.
`qe_routine` stands for the external `routines.qe`; `none` for `qe`,
`dsnu`, `prnu` is Python `None`.  The `dsnu or np.zeros(...)` /
`prnu or np.ones(...)` resolution can raise `ValueError`, hence `Except`. -/
def Camera.init (qe_routine : ℝ → ℝ)
    (f_number pixel_area : ℝ) (bit_depth width height : ℕ)
    (temperature temperature_ref temperature_doubling : ℝ)
    (wavelength : ℝ) (qe : Option ℝ)
    (exposure exposure_min exposure_max : ℝ)
    (K K_min K_max : ℝ) (K_steps : ℕ)
    (blackoffset blackoffset_min blackoffset_max : ℝ)
    (blackoffset_steps : ℕ)
    (dark_current_ref dark_signal_0 sigma2_dark_0 : ℝ)
    (dsnu prnu : Option (Arr ℝ)) : Except String Camera := do
  let qeVal : ℝ := match qe with
    | none => qe_routine wavelength
    | some q => q
  let Ks := linspace K_min K_max K_steps
  let bos := linspace blackoffset_min blackoffset_max blackoffset_steps
  let dsnuArr ← orDefault dsnu ⟨height, width, fun _ _ => 0⟩
  let prnuArr ← orDefault prnu ⟨height, width, fun _ _ => 1⟩
  pure
    { f_number := f_number
      pixel_area := pixel_area
      bit_depth := bit_depth
      img_max := 2 ^ bit_depth - 1
      width := width
      height := height
      temperature := temperature
      temperature_ref := temperature_ref
      temperature_doubling := temperature_doubling
      wavelength := wavelength
      qe := qeVal
      dark_current_ref := dark_current_ref
      dark_signal_0 := dark_signal_0
      sigma2_dark_0 := sigma2_dark_0
      exposure := exposure
      exposure_min := exposure_min
      exposure_max := exposure_max
      Ks := Ks
      K := nearest_value K Ks
      blackoffsets := bos
      blackoffset := nearest_value blackoffset bos
      dsnu := dsnuArr
      prnu := prnuArr }

/-- `_u_i`: dark current in DN/s,
`1. * dark_current_ref * 2 ** ((temperature - temperature_ref) / temperature_doubling)`. -/
def Camera.u_i (c : Camera) : ℝ :=
  c.dark_current_ref *
    (2 : ℝ) ^ ((c.temperature - c.temperature_ref) / c.temperature_doubling)

/-- `_u_d`: mean number of electrons without light,
`u_i * exposure / 10**9 + dark_signal_0`. -/
def Camera.u_d (c : Camera) : ℝ :=
  c.u_i * c.exposure / 10 ^ 9 + c.dark_signal_0

/-- `get_photons`: photons received by one pixel; `exposure is None`
defaults to the stored exposure (an is-`None` check in the source). -/
def Camera.get_photons (c : Camera) (gp : PhotonFn) (radiance : ℝ)
    (exposure : Option ℝ) : ℝ :=
  let e := exposure.getD c.exposure
  gp e c.wavelength radiance c.pixel_area c.f_number

/-- `_u_e`: mean number of electrons per pixel during exposure,
`qe * get_photons(radiance)`. -/
def Camera.u_e (c : Camera) (gp : PhotonFn) (radiance : ℝ) : ℝ :=
  c.qe * c.get_photons gp radiance none

/-- `_s2_e`: variance of the electron count — equals the mean (Poisson). -/
def Camera.s2_e (c : Camera) (gp : PhotonFn) (radiance : ℝ) : ℝ :=
  c.u_e gp radiance

/-- `_u_y`: mean digital value (DN), `K * (u_d + u_e(radiance))`. -/
def Camera.u_y (c : Camera) (gp : PhotonFn) (radiance : ℝ) : ℝ :=
  c.K * (c.u_d + c.u_e gp radiance)

/-- `_s2_q`: quantization-noise variance, `1/12`. -/
def Camera.s2_q (_c : Camera) : ℝ := 1 / 12

/-- `_s2_d`: dark-signal variance,
`sigma2_dark_0 + u_i * exposure / 10**9`. -/
def Camera.s2_d (c : Camera) : ℝ :=
  c.sigma2_dark_0 + c.u_i * c.exposure / 10 ^ 9

/-- `_s2_y`: variance of the digital signal,
`K**2 * (s2_d + s2_e(radiance)) + s2_q`. -/
def Camera.s2_y (c : Camera) (gp : PhotonFn) (radiance : ℝ) : ℝ :=
  c.K ^ 2 * (c.s2_d + c.s2_e gp radiance) + c.s2_q

/-- `np.rint`: round to the nearest integer, ties to even. -/
def rint (x : ℝ) : ℤ :=
  if Int.fract x = 1 / 2 then (if Even ⌊x⌋ then ⌊x⌋ else ⌊x⌋ + 1)
  else round x

/-- `grab`: synthesize one frame.  The per-pixel normal draw
`np.random.normal(loc=u_y, scale=sqrt(s2_y))` is modelled as
`u_y + sqrt(s2_y) * z i j` with `z` the standard-normal sample matrix;
then `img *= prnu`, `img += K * dsnu`, `img += blackoffset`, `np.rint`,
`np.clip(img, 0, img_max)`, `astype(np.uint64)`. -/
def Camera.grab (c : Camera) (gp : PhotonFn) (radiance : ℝ)
    (z : ℕ → ℕ → ℝ) : Arr ℕ :=
  let clipping_point : ℤ := c.img_max
  let uy := c.u_y gp radiance
  let s := Real.sqrt (c.s2_y gp radiance)
  { rows := c.height
    cols := c.width
    data := fun i j =>
      let v := (uy + s * z i j) * c.prnu.data i j
                 + c.K * c.dsnu.data i j + c.blackoffset
      (max 0 (min (rint v) clipping_point)).toNat }

/-- `grab` as a state transformer: the method only reads `self` and
assigns no attribute, so the output state is the input state. -/
def Camera.grabS (c : Camera) (gp : PhotonFn) (radiance : ℝ)
    (z : ℕ → ℕ → ℝ) : Camera × Arr ℕ :=
  (c, c.grab gp radiance z)

/-- `get_radiance_for`: invert the mean chain.  `gr` stands for the
external `routines.get_radiance`.  The defaults are resolved by Python
falsiness (`if not mean`, `if not exposure`): `None` *and* `0` both fall
back to `img_max` resp. the stored exposure. -/
def Camera.get_radiance_for (c : Camera) (gr : PhotonFn)
    (mean : Option ℝ) (exposure : Option ℝ) : ℝ :=
  let m : ℝ := match mean with
    | none => (c.img_max : ℝ)
    | some x => if x = 0 then (c.img_max : ℝ) else x
  let e : ℝ := match exposure with
    | none => c.exposure
    | some x => if x = 0 then c.exposure else x
  let ud := c.u_d
  let ue := m / c.K - ud
  let up := ue / c.qe
  gr e c.wavelength up c.pixel_area c.f_number

/-- `K.setter`: snap to the nearest candidate gain. -/
def Camera.setK (c : Camera) (v : ℝ) : Camera :=
  { c with K := nearest_value v c.Ks }

/-- `blackoffset.setter`: snap to the nearest candidate offset. -/
def Camera.setBlackoffset (c : Camera) (v : ℝ) : Camera :=
  { c with blackoffset := nearest_value v c.blackoffsets }

/-- `exposure.setter`: plain assignment. -/
def Camera.setExposure (c : Camera) (v : ℝ) : Camera :=
  { c with exposure := v }

/-- One mutator call on the camera (the three public setters). -/
inductive CamOp where
  | setK (v : ℝ)
  | setBlackoffset (v : ℝ)
  | setExposure (v : ℝ)

/-- Apply one mutator call. -/
def applyOp (c : Camera) : CamOp → Camera
  | .setK v => c.setK v
  | .setBlackoffset v => c.setBlackoffset v
  | .setExposure v => c.setExposure v

/-- A concrete camera state (the source's default geometry with unit gain
and unit quantum efficiency) used to instantiate the theorems. -/
def camA : Camera where
  f_number := 8
  pixel_area := 25
  bit_depth := 8
  img_max := 255
  width := 640
  height := 480
  temperature := 22
  temperature_ref := 30
  temperature_doubling := 8
  wavelength := 525
  qe := 1 / 2
  dark_current_ref := 0
  dark_signal_0 := 0
  sigma2_dark_0 := 10
  exposure := 1000000
  exposure_min := 10000
  exposure_max := 500000000
  Ks := [1]
  K := 1
  blackoffsets := [0]
  blackoffset := 0
  dsnu := ⟨480, 640, fun _ _ => 0⟩
  prnu := ⟨480, 640, fun _ _ => 1⟩

/-- A photon routine that simply reports the radiance argument; it is
non-decreasing in radiance, constant in exposure, and its own exact
inverse in the photon slot. -/
def gpA : PhotonFn := fun _ _ r _ _ => r

/-- The camera state produced by `Camera.init` with degenerate one-point
candidate sequences (`K_steps = blackoffset_steps = 1`) and no
fixed-pattern maps supplied. -/
def camB : Camera where
  f_number := 8
  pixel_area := 25
  bit_depth := 8
  img_max := 2 ^ 8 - 1
  width := 640
  height := 480
  temperature := 22
  temperature_ref := 30
  temperature_doubling := 8
  wavelength := 525
  qe := 1 / 2
  dark_current_ref := 0
  dark_signal_0 := 0
  sigma2_dark_0 := 10
  exposure := 1000000
  exposure_min := 10000
  exposure_max := 500000000
  Ks := linspace 1 1 1
  K := nearest_value 1 (linspace 1 1 1)
  blackoffsets := linspace 0 0 1
  blackoffset := nearest_value 0 (linspace 0 0 1)
  dsnu := ⟨480, 640, fun _ _ => 0⟩
  prnu := ⟨480, 640, fun _ _ => 1⟩

/-- A camera with nonzero dark current (`dark_current_ref = 1` at the
reference temperature, so `u_i = 1` DN/s) and stored exposure
`2·10⁹ ns` — i.e. 2 dark electrons accumulate at the stored exposure but
only 1 at a given exposure of `10⁹ ns`. -/
def camC : Camera where
  f_number := 8
  pixel_area := 25
  bit_depth := 8
  img_max := 255
  width := 640
  height := 480
  temperature := 30
  temperature_ref := 30
  temperature_doubling := 8
  wavelength := 525
  qe := 1
  dark_current_ref := 1
  dark_signal_0 := 0
  sigma2_dark_0 := 10
  exposure := 2 * 10 ^ 9
  exposure_min := 10000
  exposure_max := 500000000
  Ks := [1]
  K := 1
  blackoffsets := [0]
  blackoffset := 0
  dsnu := ⟨480, 640, fun _ _ => 0⟩
  prnu := ⟨480, 640, fun _ _ => 1⟩

end Emva1288

namespace Emva1288

/-- C3: `meanOutput(radiance)` is `K` times the sum of the dark-electron
term (dark current doubling law, ns→s conversion, plus offset) and the
light-electron term (`qe` times the external photon count at the stored
exposure). -/
theorem C3_mean_output_formula (c : Camera) (gp : PhotonFn) (radiance : ℝ) :
    c.u_y gp radiance =
      c.K * ((c.dark_current_ref *
                (2 : ℝ) ^ ((c.temperature - c.temperature_ref) /
                  c.temperature_doubling) * c.exposure / 10 ^ 9
              + c.dark_signal_0)
             + c.qe * gp c.exposure c.wavelength radiance c.pixel_area
                 c.f_number) := by
  simp only [Camera.u_y, Camera.u_d, Camera.u_i, Camera.u_e,
    Camera.get_photons, Option.getD_none]

/-- C2: `grab` returns a `(height, width)` grid of naturals all bounded by
`maxDN = 2^bitDepth - 1` (non-negativity is the codomain `ℕ`), for any
radiance `≥ 0`, any photon routine and any normal sample. -/
theorem C2_grab_shape_and_range (c : Camera) (gp : PhotonFn) (radiance : ℝ)
    (z : ℕ → ℕ → ℝ) (hmax : c.img_max = 2 ^ c.bit_depth - 1)
    (_hr : 0 ≤ radiance) :
    (c.grab gp radiance z).rows = c.height ∧
    (c.grab gp radiance z).cols = c.width ∧
    ∀ i j, (c.grab gp radiance z).data i j ≤ 2 ^ c.bit_depth - 1 := by
  refine ⟨rfl, rfl, fun i j => ?_⟩
  simp only [Camera.grab]
  rw [← hmax]
  omega

/-- C4: `varianceOutput` is `K²·(darkVariance + lightVariance) + 1/12`
with `lightVariance = qe ·` photon count (the Poisson mean), and under
non-negative dark parameters, exposure, `qe` and photon count it is at
least the quantization floor `1/12`. -/
theorem C4_variance_formula_and_floor (c : Camera) (gp : PhotonFn)
    (radiance : ℝ)
    (hdcr : 0 ≤ c.dark_current_ref) (hs0 : 0 ≤ c.sigma2_dark_0)
    (he : 0 ≤ c.exposure) (hqe : 0 ≤ c.qe) (_hr : 0 ≤ radiance)
    (hgp : 0 ≤ gp c.exposure c.wavelength radiance c.pixel_area c.f_number) :
    c.s2_y gp radiance =
      c.K ^ 2 * ((c.sigma2_dark_0 + c.u_i * c.exposure / 10 ^ 9)
        + c.qe * gp c.exposure c.wavelength radiance c.pixel_area c.f_number)
        + 1 / 12 ∧
    1 / 12 ≤ c.s2_y gp radiance := by
  have hui : 0 ≤ c.u_i :=
    mul_nonneg hdcr (Real.rpow_nonneg (by norm_num) _)
  have hd : 0 ≤ c.s2_d := by
    have : 0 ≤ c.u_i * c.exposure / 10 ^ 9 := by positivity
    simp only [Camera.s2_d]; linarith
  have hl : 0 ≤ c.s2_e gp radiance := by
    simp only [Camera.s2_e, Camera.u_e, Camera.get_photons, Option.getD_none]
    exact mul_nonneg hqe hgp
  constructor
  · simp only [Camera.s2_y, Camera.s2_d, Camera.s2_e, Camera.u_e,
      Camera.get_photons, Option.getD_none, Camera.s2_q]
  · have hK2 : 0 ≤ c.K ^ 2 * (c.s2_d + c.s2_e gp radiance) :=
      mul_nonneg (sq_nonneg _) (add_nonneg hd hl)
    simp only [Camera.s2_y, Camera.s2_q]
    linarith

/-- C8: under non-negative gain, quantum efficiency and dark-current
reference, and a photon routine non-decreasing in radiance and in
exposure, `meanOutput` is non-decreasing in radiance and in the exposure
set on the camera. -/
theorem C8_mean_output_monotone (c : Camera) (gp : PhotonFn)
    (hK : 0 ≤ c.K) (hqe0 : 0 ≤ c.qe) (_hqe1 : c.qe ≤ 1)
    (hdcr : 0 ≤ c.dark_current_ref)
    (hgpr : ∀ e w a f r₁ r₂, r₁ ≤ r₂ → gp e w r₁ a f ≤ gp e w r₂ a f)
    (hgpe : ∀ w r a f e₁ e₂, e₁ ≤ e₂ → gp e₁ w r a f ≤ gp e₂ w r a f) :
    (∀ r₁ r₂, r₁ ≤ r₂ → c.u_y gp r₁ ≤ c.u_y gp r₂) ∧
    (∀ r e₁ e₂, e₁ ≤ e₂ →
      (c.setExposure e₁).u_y gp r ≤ (c.setExposure e₂).u_y gp r) := by
  have hui : 0 ≤ c.u_i :=
    mul_nonneg hdcr (Real.rpow_nonneg (by norm_num) _)
  constructor
  · intro r₁ r₂ hr
    simp only [Camera.u_y, Camera.u_e, Camera.get_photons, Option.getD_none]
    have := hgpr c.exposure c.wavelength c.pixel_area c.f_number r₁ r₂ hr
    have h1 : c.qe * gp c.exposure c.wavelength r₁ c.pixel_area c.f_number ≤
        c.qe * gp c.exposure c.wavelength r₂ c.pixel_area c.f_number :=
      mul_le_mul_of_nonneg_left this hqe0
    exact mul_le_mul_of_nonneg_left (by linarith) hK
  · intro r e₁ e₂ he
    simp only [Camera.u_y, Camera.u_d, Camera.u_i, Camera.u_e,
      Camera.get_photons, Option.getD_none, Camera.setExposure]
    have hgpe' := hgpe c.wavelength r c.pixel_area c.f_number e₁ e₂ he
    have hui' : (0:ℝ) ≤ c.dark_current_ref *
        (2 : ℝ) ^ ((c.temperature - c.temperature_ref) /
          c.temperature_doubling) :=
      mul_nonneg hdcr (Real.rpow_nonneg (by norm_num) _)
    have h1 : c.dark_current_ref *
        (2 : ℝ) ^ ((c.temperature - c.temperature_ref) /
          c.temperature_doubling) * e₁ / 10 ^ 9 ≤
        c.dark_current_ref *
        (2 : ℝ) ^ ((c.temperature - c.temperature_ref) /
          c.temperature_doubling) * e₂ / 10 ^ 9 := by
      gcongr
    have h2 : c.qe * gp e₁ c.wavelength r c.pixel_area c.f_number ≤
        c.qe * gp e₂ c.wavelength r c.pixel_area c.f_number :=
      mul_le_mul_of_nonneg_left hgpe' hqe0
    exact mul_le_mul_of_nonneg_left (by linarith) hK

/-- C9: `grab`, viewed as a state transformer, leaves every field of the
camera state unchanged: exposure, gain, black offset, candidate
sequences, fixed-pattern maps, and the whole record. -/
theorem C9_grab_preserves_state (c : Camera) (gp : PhotonFn) (radiance : ℝ)
    (z : ℕ → ℕ → ℝ) :
    (c.grabS gp radiance z).1.exposure = c.exposure ∧
    (c.grabS gp radiance z).1.K = c.K ∧
    (c.grabS gp radiance z).1.blackoffset = c.blackoffset ∧
    (c.grabS gp radiance z).1.Ks = c.Ks ∧
    (c.grabS gp radiance z).1.blackoffsets = c.blackoffsets ∧
    (c.grabS gp radiance z).1.dsnu = c.dsnu ∧
    (c.grabS gp radiance z).1.prnu = c.prnu ∧
    (c.grabS gp radiance z).1 = c :=
  ⟨rfl, rfl, rfl, rfl, rfl, rfl, rfl, rfl⟩

/-- C10: in `get_radiance_for` the default test is falsiness, not
is-`None`: `mean = 0` behaves exactly like omitting `mean` (replaced by
`img_max`), and `exposure = 0` behaves exactly like omitting `exposure`
(replaced by the stored exposure). -/
theorem C10_falsy_defaults (c : Camera) (gr : PhotonFn)
    (e m : Option ℝ) :
    c.get_radiance_for gr (some 0) e = c.get_radiance_for gr none e ∧
    c.get_radiance_for gr m (some 0) = c.get_radiance_for gr m none := by
  constructor <;> simp [Camera.get_radiance_for]

/-- `linspace` is nonempty when at least one point is requested. -/
theorem linspace_ne_nil (a b : ℝ) (num : ℕ) (h : num ≠ 0) :
    linspace a b num ≠ [] := by
  intro hnil
  have hlen := congrArg List.length hnil
  rw [linspace, List.length_map, List.length_range,
    List.length_nil] at hlen
  exact h hlen

/-- A fold that at each step keeps either the accumulator or the current
element ends in the accumulator or in an element of the list. -/
theorem foldl_choose_mem (v : ℝ) (cs : List ℝ) (a : ℝ) :
    cs.foldl (fun best x => if |v - x| < |v - best| then x else best) a = a ∨
    cs.foldl (fun best x => if |v - x| < |v - best| then x else best) a ∈ cs := by
  induction cs generalizing a with
  | nil => exact Or.inl rfl
  | cons x xs ih =>
    simp only [List.foldl_cons]
    by_cases h : |v - x| < |v - a|
    · rw [if_pos h]
      rcases ih x with h1 | h1
      · exact Or.inr (by rw [h1]; exact List.mem_cons_self x xs)
      · exact Or.inr (List.mem_cons_of_mem x h1)
    · rw [if_neg h]
      rcases ih a with h1 | h1
      · exact Or.inl h1
      · exact Or.inr (List.mem_cons_of_mem x h1)

/-- The snapped value is always a member of a nonempty candidate list. -/
theorem nearest_value_mem (v : ℝ) (l : List ℝ) (h : l ≠ []) :
    nearest_value v l ∈ l := by
  match l with
  | [] => exact absurd rfl h
  | c :: cs =>
    simp only [nearest_value]
    rcases foldl_choose_mem v cs c with h1 | h1
    · rw [h1]; exact List.mem_cons_self c cs
    · exact List.mem_cons_of_mem c h1

/-- Candidate sequences and snapped actives of a successfully
constructed camera. -/
theorem Camera.init_fields
    (qr : ℝ → ℝ) (f_number pixel_area : ℝ) (bit_depth width height : ℕ)
    (temperature temperature_ref temperature_doubling wavelength : ℝ)
    (qe : Option ℝ) (exposure exposure_min exposure_max : ℝ)
    (K K_min K_max : ℝ) (K_steps : ℕ)
    (blackoffset blackoffset_min blackoffset_max : ℝ)
    (blackoffset_steps : ℕ)
    (dark_current_ref dark_signal_0 sigma2_dark_0 : ℝ)
    (dsnu prnu : Option (Arr ℝ)) (c₀ : Camera)
    (h : Camera.init qr f_number pixel_area bit_depth width height
      temperature temperature_ref temperature_doubling wavelength qe
      exposure exposure_min exposure_max K K_min K_max K_steps
      blackoffset blackoffset_min blackoffset_max blackoffset_steps
      dark_current_ref dark_signal_0 sigma2_dark_0 dsnu prnu = .ok c₀) :
    c₀.Ks = linspace K_min K_max K_steps ∧
    c₀.K = nearest_value K (linspace K_min K_max K_steps) ∧
    c₀.blackoffsets =
      linspace blackoffset_min blackoffset_max blackoffset_steps ∧
    c₀.blackoffset = nearest_value blackoffset
      (linspace blackoffset_min blackoffset_max blackoffset_steps) := by
  simp only [Camera.init] at h
  cases h1 : orDefault dsnu ⟨height, width, fun _ _ => 0⟩ with
  | error e => rw [h1] at h; simp [Bind.bind, Except.bind] at h
  | ok a =>
    rw [h1] at h
    cases h2 : orDefault prnu ⟨height, width, fun _ _ => 1⟩ with
    | error e => rw [h2] at h; simp [Bind.bind, Except.bind] at h
    | ok b =>
      rw [h2] at h
      simp only [Bind.bind, Except.bind, pure, Except.pure,
        Except.ok.injEq] at h
      subst h
      exact ⟨rfl, rfl, rfl, rfl⟩

/-- C7: after construction (with nonempty candidate sequences) and after
any sequence of setter calls with arbitrary real arguments, the active
gain is a member of the candidate-gain sequence and the active black
offset a member of the black-offset candidate sequence. -/
theorem C7_active_settings_snapped
    (qr : ℝ → ℝ) (f_number pixel_area : ℝ) (bit_depth width height : ℕ)
    (temperature temperature_ref temperature_doubling wavelength : ℝ)
    (qe : Option ℝ) (exposure exposure_min exposure_max : ℝ)
    (K K_min K_max : ℝ) (K_steps : ℕ)
    (blackoffset blackoffset_min blackoffset_max : ℝ)
    (blackoffset_steps : ℕ)
    (dark_current_ref dark_signal_0 sigma2_dark_0 : ℝ)
    (dsnu prnu : Option (Arr ℝ)) (c₀ : Camera)
    (hKs : K_steps ≠ 0) (hbs : blackoffset_steps ≠ 0)
    (h : Camera.init qr f_number pixel_area bit_depth width height
      temperature temperature_ref temperature_doubling wavelength qe
      exposure exposure_min exposure_max K K_min K_max K_steps
      blackoffset blackoffset_min blackoffset_max blackoffset_steps
      dark_current_ref dark_signal_0 sigma2_dark_0 dsnu prnu = .ok c₀)
    (ops : List CamOp) :
    (ops.foldl applyOp c₀).K ∈ (ops.foldl applyOp c₀).Ks ∧
    (ops.foldl applyOp c₀).blackoffset ∈
      (ops.foldl applyOp c₀).blackoffsets := by
  obtain ⟨h1, h2, h3, h4⟩ := Camera.init_fields qr f_number pixel_area
    bit_depth width height temperature temperature_ref
    temperature_doubling wavelength qe exposure exposure_min exposure_max
    K K_min K_max K_steps blackoffset blackoffset_min blackoffset_max
    blackoffset_steps dark_current_ref dark_signal_0 sigma2_dark_0
    dsnu prnu c₀ h
  have hKne : c₀.Ks ≠ [] := by
    rw [h1]; exact linspace_ne_nil _ _ _ hKs
  have hbne : c₀.blackoffsets ≠ [] := by
    rw [h3]; exact linspace_ne_nil _ _ _ hbs
  have hmemK : c₀.K ∈ c₀.Ks := by
    have hv : c₀.K = nearest_value K c₀.Ks := by rw [h2, h1]
    rw [hv]; exact nearest_value_mem _ _ hKne
  have hmemB : c₀.blackoffset ∈ c₀.blackoffsets := by
    have hv : c₀.blackoffset = nearest_value blackoffset c₀.blackoffsets := by
      rw [h4, h3]
    rw [hv]; exact nearest_value_mem _ _ hbne
  suffices H : ∀ (l : List CamOp) (c : Camera), c.Ks ≠ [] →
      c.blackoffsets ≠ [] → c.K ∈ c.Ks →
      c.blackoffset ∈ c.blackoffsets →
      (l.foldl applyOp c).K ∈ (l.foldl applyOp c).Ks ∧
      (l.foldl applyOp c).blackoffset ∈ (l.foldl applyOp c).blackoffsets by
    exact H ops c₀ hKne hbne hmemK hmemB
  intro l
  induction l with
  | nil => intro c hc1 hc2 hc3 hc4; exact ⟨hc3, hc4⟩
  | cons op rest ih =>
    intro c hc1 hc2 hc3 hc4
    simp only [List.foldl_cons]
    cases op with
    | setK v =>
      exact ih (c.setK v) hc1 hc2 (nearest_value_mem v c.Ks hc1) hc4
    | setBlackoffset v =>
      exact ih (c.setBlackoffset v) hc1 hc2 hc3
        (nearest_value_mem v c.blackoffsets hc2)
    | setExposure v =>
      exact ih (c.setExposure v) hc1 hc2 hc3 hc4

/-- Witness for C7: the degenerate one-candidate camera `camB`, after a
`setK 5` call, still holds a gain from its candidate list. -/
theorem C7_active_settings_snapped_witness :
    ([CamOp.setK 5].foldl applyOp camB).K ∈
      ([CamOp.setK 5].foldl applyOp camB).Ks ∧
    ([CamOp.setK 5].foldl applyOp camB).blackoffset ∈
      ([CamOp.setK 5].foldl applyOp camB).blackoffsets :=
  C7_active_settings_snapped (fun _ => 1 / 2) 8 25 8 640 480 22 30 8 525
    (some (1 / 2)) 1000000 10000 500000000 1 1 1 1 0 0 0 1 0 0 10
    none none camB (by norm_num) (by norm_num) rfl [CamOp.setK 5]

/-- C1 (evaluation at the failing input): on `camC` (dark current 1 DN/s,
stored exposure 2·10⁹ ns) a call with target mean 10 and given exposure
10⁹ ns subtracts the dark electrons of the *stored* exposure (2), handing
8 photons to the radiance routine, whereas the claimed formula with the
*given* exposure yields 9; consequently at the given exposure the camera
would produce mean 9, not the target 10. -/
theorem C1_dark_term_uses_stored_exposure :
    camC.get_radiance_for gpA (some 10) (some (10 ^ 9)) = 8 ∧
    (10 / camC.K - (camC.u_i * 10 ^ 9 / 10 ^ 9 + camC.dark_signal_0)) /
      camC.qe = 9 ∧
    (camC.setExposure (10 ^ 9)).u_y gpA
      (camC.get_radiance_for gpA (some 10) (some (10 ^ 9))) = 9 := by
  norm_num [Camera.get_radiance_for, Camera.u_y, Camera.u_e,
    Camera.get_photons, Camera.u_d, Camera.u_i, Camera.setExposure,
    camC, gpA, Real.rpow_zero]

/-- C6 (evaluation at the failing input): supplying a dsnu map to a 2×2
camera makes construction fail with the ambiguous-truth-value error,
because the constructor resolves the optional maps with Python
`dsnu or default` rather than an is-`None` check. -/
theorem C6_supplied_map_raises :
    Camera.init (fun _ => 1 / 2) 8 25 8 2 2 22 30 8 525 (some 1)
      1000000 10000 500000000 1 1 1 1 0 0 0 1 0 0 10
      (some ⟨2, 2, fun _ _ => 0⟩) none =
    .error
      "The truth value of an array with more than one element is ambiguous"
    := rfl

/-- C5 (counterexample): with exact-inverse photon routines (`gpA` is its
own inverse) and `camA` (no dark signal, so the claimed range is
`[0, 255]`), the target mean `0` lies in the range, yet the round trip
returns the mean for saturation instead of `0`, because `mean = 0` is
falsy and is replaced by `img_max`. -/
theorem C5_roundtrip_counterexample :
    (∀ e w p a f, gpA e w (gpA e w p a f) a f = p) ∧
    camA.u_d * camA.K ≤ 0 ∧ (0 : ℝ) ≤ (camA.img_max : ℝ) ∧
    camA.u_y gpA
      (camA.get_radiance_for gpA (some 0) (some camA.exposure)) ≠ 0 := by
  refine ⟨fun _ _ _ _ _ => rfl, ?_, ?_, ?_⟩
  · norm_num [Camera.u_d, Camera.u_i, camA]
  · norm_num [camA]
  · norm_num [Camera.get_radiance_for, Camera.u_y, Camera.u_e,
      Camera.get_photons, Camera.u_d, Camera.u_i, camA, gpA]

/-- C5 (amended): for a *nonzero* target mean in
`[meanDarkElectrons·K, maxDN]`, exposure argument equal to the stored
exposure, exact-inverse external routines and nonzero `K`, `qe`, the
round trip is exact: `meanOutput(requiredRadiance(targetMean, exposure))
= targetMean`. -/
theorem C5_roundtrip_amended (c : Camera) (gp gr : PhotonFn) (mean : ℝ)
    (hinv : ∀ e w p a f, gp e w (gr e w p a f) a f = p)
    (hm0 : mean ≠ 0)
    (_hlo : c.u_d * c.K ≤ mean) (_hhi : mean ≤ (c.img_max : ℝ))
    (hK : c.K ≠ 0) (hqe : c.qe ≠ 0) :
    c.u_y gp (c.get_radiance_for gr (some mean) (some c.exposure)) = mean := by
  simp only [Camera.get_radiance_for, Camera.u_y, Camera.u_e,
    Camera.get_photons, Option.getD_none, if_neg hm0, ite_self]
  rw [hinv]
  field_simp
  ring

/-- Witness for the amended C5 at `camA` with target mean 100. -/
theorem C5_roundtrip_amended_witness :
    camA.u_y gpA
      (camA.get_radiance_for gpA (some 100) (some camA.exposure)) = 100 :=
  C5_roundtrip_amended camA gpA gpA 100 (fun _ _ _ _ _ => rfl)
    (by norm_num)
    (by norm_num [Camera.u_d, Camera.u_i, camA])
    (by norm_num [camA]) (by norm_num [camA]) (by norm_num [camA])

/-- Witness for C2 at the concrete camera `camA`, zero radiance and a
zero normal sample. -/
theorem C2_grab_shape_and_range_witness :
    (camA.grab gpA 0 (fun _ _ => 0)).data 0 0 ≤ 2 ^ camA.bit_depth - 1 :=
  (C2_grab_shape_and_range camA gpA 0 (fun _ _ => 0) rfl le_rfl).2.2 0 0

/-- Witness for C4 at the concrete camera `camA` and zero radiance. -/
theorem C4_variance_formula_and_floor_witness :
    1 / 12 ≤ camA.s2_y gpA 0 :=
  (C4_variance_formula_and_floor camA gpA 0
    (by norm_num [camA]) (by norm_num [camA]) (by norm_num [camA])
    (by norm_num [camA]) le_rfl (by norm_num [gpA])).2

/-- Witness for C8 at the concrete camera `camA`: more radiance and a
longer exposure never decrease the mean output. -/
theorem C8_mean_output_monotone_witness :
    camA.u_y gpA 0 ≤ camA.u_y gpA 1 ∧
    (camA.setExposure 1000000).u_y gpA 3 ≤
      (camA.setExposure 2000000).u_y gpA 3 := by
  have h := C8_mean_output_monotone camA gpA
    (by norm_num [camA]) (by norm_num [camA]) (by norm_num [camA])
    (by norm_num [camA])
    (fun e w a f r₁ r₂ hr => by simpa [gpA] using hr)
    (fun w r a f e₁ e₂ he => by simp [gpA])
  exact ⟨h.1 0 1 (by norm_num), h.2 3 1000000 2000000 (by norm_num)⟩

end Emva1288
